import Mathlib

/-!
Verification of the h2o content-structure engine (`web/main/models.py`).

The development shallowly embeds the parts of `models.py` that the claims
touch:

* the materialized-path content tree (`MaterializedPathTreeMixin` /
  `Casebook`): `content_tree__update_ordinals`, `content_tree__store`,
  `content_tree__repair`, `content_tree__move_to`,
  `content_tree__get_next_available_child_ordinals`,
  `content_tree__descendants`;
* annotation reconciliation (`ContentAnnotation.update_annotations`,
  `ContentAnnotationQuerySet.valid`, `AnnotatedModel.save`);
* the casebook lifecycle state machine (`Casebook.can_transition_to`,
  `Casebook.transition_to`, `Casebook.merge_draft`);
* cloning (`Casebook.collect_cloning_nodes` and the
  `save_and_parent_cloned_*` helpers).

Django rows become plain records, querysets become lists, and the
in-memory tree populated by `content_tree__load` becomes an inductive
rose tree whose structure is the loaded parent/children linkage.  The
Python generator `content_tree__update_ordinals` both rewrites node rows
in place and yields the changed rows; it is embedded as two functions
computing, respectively, the rewritten tree and the yielded sequence.
-/

namespace H2O

/-- The columns of one `ContentNode` row that the content-tree engine reads
or writes: `ordinals`, `display_ordinals` and `does_display_ordinals` from
`MaterializedPathTreeMixin`, plus the node's primary key and the
`is_resource` discriminant (`resource_id is not None`). -/
structure NodeData where
  id : Nat
  ordinals : List Nat
  display_ordinals : List Nat
  does_display_ordinals : Bool
  is_resource : Bool
  deriving Repr, DecidableEq

/-- The in-memory content tree built by `content_tree__load`: a node row
together with its ordered `content_tree__children`. -/
inductive CTree where
  | node (data : NodeData) (children : List CTree)
  deriving Repr

/-- The node's row data. -/
def CTree.data : CTree → NodeData
  | .node d _ => d

/-- The node's loaded `content_tree__children`. -/
def CTree.children : CTree → List CTree
  | .node _ cs => cs

/-- One step of `current_display_ordinal` in
`content_tree__update_ordinals`: the counter advances only for children
with `does_display_ordinals`. -/
def cdo_step (cdo : Nat) (d : NodeData) : Nat :=
  if d.does_display_ordinals then cdo + 1 else cdo

/-- The guard of `ContentNode.content_tree__update_ordinals`: the row is
rewritten when its `ordinals` disagree with the freshly computed ones, or
its `display_ordinals` are empty or disagree with the freshly computed
ones.  `cdo'` is the already-advanced `current_display_ordinal`. -/
def upd_changed (pOrd pDisp : List Nat) (i cdo' : Nat) (d : NodeData) : Bool :=
  d.ordinals != pOrd ++ [i + 1] || d.display_ordinals.isEmpty ||
    d.display_ordinals != pDisp ++ [cdo']

/-- The row rewrite performed by `ContentNode.content_tree__update_ordinals`
on one child (a no-op when the guard does not fire). -/
def upd_head (pOrd pDisp : List Nat) (i cdo' : Nat) (d : NodeData) : NodeData :=
  if upd_changed pOrd pDisp i cdo' d then
    { d with ordinals := pOrd ++ [i + 1], display_ordinals := pDisp ++ [cdo'] }
  else d

/-- `ContentNode.content_tree__update_ordinals`, state effect: the subtree
forest rewritten so that each child's `ordinals` is the parent's `ordinals`
plus its 1-based position, and its `display_ordinals` is the parent's
`display_ordinals` plus the running count of display-showing children.
`pOrd`/`pDisp` are `self.ordinals`/`self.display_ordinals`, `i` the loop
index and `cdo` the running `current_display_ordinal`.  Recursion into a
child uses the child's (possibly rewritten) row, as in the source, and
recursing into an empty child list is a no-op exactly like the source's
`if node.content_tree__children:` guard. -/
def content_tree__update_ordinals_tree (pOrd pDisp : List Nat) (i cdo : Nat) :
    List CTree → List CTree
  | [] => []
  | CTree.node d cs :: rest =>
    let d' := upd_head pOrd pDisp i (cdo_step cdo d) d
    CTree.node d'
        (content_tree__update_ordinals_tree d'.ordinals d'.display_ordinals 0 0 cs) ::
      content_tree__update_ordinals_tree pOrd pDisp (i + 1) (cdo_step cdo d) rest
  termination_by ts => sizeOf ts

/-- `ContentNode.content_tree__update_ordinals`, yielded sequence: the rows
the generator yields (exactly the rewritten rows, parent before its
subtree, siblings in order). -/
def content_tree__update_ordinals_yield (pOrd pDisp : List Nat) (i cdo : Nat) :
    List CTree → List NodeData
  | [] => []
  | CTree.node d cs :: rest =>
    let d' := upd_head pOrd pDisp i (cdo_step cdo d) d
    (if upd_changed pOrd pDisp i (cdo_step cdo d) d then [d'] else []) ++
      content_tree__update_ordinals_yield d'.ordinals d'.display_ordinals 0 0 cs ++
      content_tree__update_ordinals_yield pOrd pDisp (i + 1) (cdo_step cdo d) rest
  termination_by ts => sizeOf ts

/-- The guard of `Casebook.content_tree__update_ordinals`: at the top level
the correct ordinals are `[i + 1]` and only the *last* display ordinal is
compared (`node.display_ordinals[-1] != current_display_ordinal`, the
emptiness test short-circuiting first exactly as the `or` does in the
source). -/
def casebook_changed (i cdo' : Nat) (d : NodeData) : Bool :=
  d.ordinals != [i + 1] || d.display_ordinals.isEmpty ||
    d.display_ordinals.getLastD 0 != cdo'

/-- The row rewrite performed by `Casebook.content_tree__update_ordinals`
on one top-level child. -/
def casebook_head (i cdo' : Nat) (d : NodeData) : NodeData :=
  if casebook_changed i cdo' d then
    { d with ordinals := [i + 1], display_ordinals := [cdo'] }
  else d

/-- `Casebook.content_tree__update_ordinals`, state effect; recursion into
a child's subtree uses the `ContentNode` method, as in the source. -/
def casebook_update_ordinals_tree (i cdo : Nat) : List CTree → List CTree
  | [] => []
  | CTree.node d cs :: rest =>
    let d' := casebook_head i (cdo_step cdo d) d
    CTree.node d'
        (content_tree__update_ordinals_tree d'.ordinals d'.display_ordinals 0 0 cs) ::
      casebook_update_ordinals_tree (i + 1) (cdo_step cdo d) rest

/-- `Casebook.content_tree__update_ordinals`, yielded sequence. -/
def casebook_update_ordinals_yield (i cdo : Nat) : List CTree → List NodeData
  | [] => []
  | CTree.node d cs :: rest =>
    let d' := casebook_head i (cdo_step cdo d) d
    (if casebook_changed i (cdo_step cdo d) d then [d'] else []) ++
      content_tree__update_ordinals_yield d'.ordinals d'.display_ordinals 0 0 cs ++
      casebook_update_ordinals_yield (i + 1) (cdo_step cdo d) rest

/-- `ContentNode.content_tree__store` on a loaded node: the rewritten
subtree, and the rows passed to `bulk_update_with_history` — `[self]`
unconditionally, followed by everything `content_tree__update_ordinals`
yields. -/
def content_tree__store (t : CTree) : CTree × List NodeData :=
  match t with
  | .node d cs =>
    (CTree.node d (content_tree__update_ordinals_tree d.ordinals d.display_ordinals 0 0 cs),
     d :: content_tree__update_ordinals_yield d.ordinals d.display_ordinals 0 0 cs)

/-- `Casebook.content_tree__store`: the rewritten top-level forest and the
rows written (exactly the yielded rows; the casebook itself is not a
`ContentNode` row and is not included). -/
def casebook_content_tree__store (ts : List CTree) : List CTree × List NodeData :=
  (casebook_update_ordinals_tree 0 0 ts, casebook_update_ordinals_yield 0 0 ts)

/-- `ContentNode.content_tree__repair` = `content_tree__load` followed by
`content_tree__store`; the load step is the identity on the already-loaded
in-memory tree, so repair is store. -/
def content_tree__repair (t : CTree) : CTree × List NodeData :=
  content_tree__store t

/-- `Casebook.content_tree__repair`. -/
def casebook_content_tree__repair (ts : List CTree) : List CTree × List NodeData :=
  casebook_content_tree__store ts

/-- The path invariant of §8 of the spec, as a decidable checker: in the
forest `ts` of children of a parent whose `ordinals` are `pOrd`, the child
with `i` earlier siblings has `ordinals = pOrd ++ [i + 1]`, recursively at
every depth. -/
def checkOrds (pOrd : List Nat) (i : Nat) : List CTree → Bool
  | [] => true
  | CTree.node d cs :: rest =>
    d.ordinals == pOrd ++ [i + 1] && checkOrds d.ordinals 0 cs &&
      checkOrds pOrd (i + 1) rest
  termination_by ts => sizeOf ts

lemma upd_head_ordinals (pOrd pDisp : List Nat) (i cdo' : Nat) (d : NodeData) :
    (upd_head pOrd pDisp i cdo' d).ordinals = pOrd ++ [i + 1] := by
  unfold upd_head
  split
  · rfl
  · next h =>
    simp only [Bool.not_eq_true, upd_changed, casebook_changed, Bool.or_eq_false_iff,
      bne_eq_false_iff_eq] at h
    exact h.1.1

lemma upd_head_display (pOrd pDisp : List Nat) (i cdo' : Nat) (d : NodeData) :
    (upd_head pOrd pDisp i cdo' d).display_ordinals = pDisp ++ [cdo'] := by
  unfold upd_head
  split
  · rfl
  · next h =>
    simp only [Bool.not_eq_true, upd_changed, casebook_changed, Bool.or_eq_false_iff,
      bne_eq_false_iff_eq] at h
    exact h.2

lemma upd_head_does (pOrd pDisp : List Nat) (i cdo' : Nat) (d : NodeData) :
    (upd_head pOrd pDisp i cdo' d).does_display_ordinals = d.does_display_ordinals := by
  unfold upd_head
  split <;> rfl

lemma upd_changed_upd_head (pOrd pDisp : List Nat) (i cdo' : Nat) (d : NodeData) :
    upd_changed pOrd pDisp i cdo' (upd_head pOrd pDisp i cdo' d) = false := by
  simp [upd_changed, upd_head_ordinals, upd_head_display]

lemma upd_head_upd_head (pOrd pDisp : List Nat) (i cdo' : Nat) (d : NodeData) :
    upd_head pOrd pDisp i cdo' (upd_head pOrd pDisp i cdo' d) =
      upd_head pOrd pDisp i cdo' d := by
  rw [upd_head, upd_changed_upd_head]
  simp

lemma casebook_head_ordinals (i cdo' : Nat) (d : NodeData) :
    (casebook_head i cdo' d).ordinals = [i + 1] := by
  unfold casebook_head
  split
  · rfl
  · next h =>
    simp only [Bool.not_eq_true, upd_changed, casebook_changed, Bool.or_eq_false_iff,
      bne_eq_false_iff_eq] at h
    exact h.1.1

lemma casebook_head_does (i cdo' : Nat) (d : NodeData) :
    (casebook_head i cdo' d).does_display_ordinals = d.does_display_ordinals := by
  unfold casebook_head
  split <;> rfl

lemma casebook_changed_casebook_head (i cdo' : Nat) (d : NodeData) :
    casebook_changed i cdo' (casebook_head i cdo' d) = false := by
  unfold casebook_head
  split
  · simp [casebook_changed]
  · next h => exact Bool.eq_false_iff.mpr h

lemma cdo_step_upd_head (pOrd pDisp : List Nat) (i cdo' cdo : Nat) (d : NodeData) :
    cdo_step cdo (upd_head pOrd pDisp i cdo' d) = cdo_step cdo d := by
  simp [cdo_step, upd_head_does]

lemma cdo_step_casebook_head (i cdo' cdo : Nat) (d : NodeData) :
    cdo_step cdo (casebook_head i cdo' d) = cdo_step cdo d := by
  simp [cdo_step, casebook_head_does]

lemma sizeOf_children_lt (d : NodeData) (cs rest : List CTree) :
    sizeOf cs < sizeOf (CTree.node d cs :: rest) := by
  simp only [List.cons.sizeOf_spec, CTree.node.sizeOf_spec]
  omega

lemma sizeOf_rest_lt (d : NodeData) (cs rest : List CTree) :
    sizeOf rest < sizeOf (CTree.node d cs :: rest) := by
  simp only [List.cons.sizeOf_spec, CTree.node.sizeOf_spec]
  omega

/-- After `ContentNode.content_tree__update_ordinals`, the whole rewritten
forest satisfies the path invariant. -/
lemma checkOrds_update_aux (n : Nat) : ∀ ts : List CTree, sizeOf ts ≤ n →
    ∀ pOrd pDisp i cdo,
    checkOrds pOrd i (content_tree__update_ordinals_tree pOrd pDisp i cdo ts) = true := by
  induction n using Nat.strong_induction_on with
  | _ n ih =>
    intro ts hts pOrd pDisp i cdo
    match ts with
    | [] =>
      rw [content_tree__update_ordinals_tree, checkOrds]
    | CTree.node d cs :: rest =>
      rw [content_tree__update_ordinals_tree, checkOrds]
      have hcs := sizeOf_children_lt d cs rest
      have hrest := sizeOf_rest_lt d cs rest
      rw [upd_head_ordinals]
      simp only [beq_self_eq_true, Bool.true_and]
      rw [ih (sizeOf cs) (by omega) cs le_rfl, ih (sizeOf rest) (by omega) rest le_rfl]
      simp [upd_head_ordinals]

lemma checkOrds_update (ts : List CTree) (pOrd pDisp : List Nat) (i cdo : Nat) :
    checkOrds pOrd i (content_tree__update_ordinals_tree pOrd pDisp i cdo ts) = true :=
  checkOrds_update_aux (sizeOf ts) ts le_rfl pOrd pDisp i cdo

/-- After `Casebook.content_tree__update_ordinals`, the rewritten forest
satisfies the path invariant (rooted at the empty path). -/
lemma checkOrds_casebook_update : ∀ ts : List CTree, ∀ i cdo,
    checkOrds [] i (casebook_update_ordinals_tree i cdo ts) = true := by
  intro ts
  induction ts with
  | nil => intro i cdo; rw [casebook_update_ordinals_tree, checkOrds]
  | cons t rest ihrest =>
    intro i cdo
    match t with
    | CTree.node d cs =>
      rw [casebook_update_ordinals_tree, checkOrds]
      have h1 : (casebook_head i (cdo_step cdo d) d).ordinals = [] ++ [i + 1] := by
        rw [casebook_head_ordinals]; rfl
      rw [h1]
      simp only [beq_self_eq_true, Bool.true_and]
      rw [checkOrds_update, ihrest]
      simp

/-- Running `ContentNode.content_tree__update_ordinals` on a forest it has
just rewritten yields nothing: every guard is false on the second pass. -/
lemma yield_update_nil_aux (n : Nat) : ∀ ts : List CTree, sizeOf ts ≤ n →
    ∀ pOrd pDisp i cdo,
    content_tree__update_ordinals_yield pOrd pDisp i cdo
      (content_tree__update_ordinals_tree pOrd pDisp i cdo ts) = [] := by
  induction n using Nat.strong_induction_on with
  | _ n ih =>
    intro ts hts pOrd pDisp i cdo
    match ts with
    | [] =>
      rw [content_tree__update_ordinals_tree, content_tree__update_ordinals_yield]
    | CTree.node d cs :: rest =>
      rw [content_tree__update_ordinals_tree, content_tree__update_ordinals_yield]
      have hcs := sizeOf_children_lt d cs rest
      have hrest := sizeOf_rest_lt d cs rest
      rw [cdo_step_upd_head, upd_changed_upd_head, upd_head_upd_head]
      rw [ih (sizeOf cs) (by omega) cs le_rfl, ih (sizeOf rest) (by omega) rest le_rfl]
      simp

lemma yield_update_nil (ts : List CTree) (pOrd pDisp : List Nat) (i cdo : Nat) :
    content_tree__update_ordinals_yield pOrd pDisp i cdo
      (content_tree__update_ordinals_tree pOrd pDisp i cdo ts) = [] :=
  yield_update_nil_aux (sizeOf ts) ts le_rfl pOrd pDisp i cdo

lemma casebook_head_casebook_head (i cdo' : Nat) (d : NodeData) :
    casebook_head i cdo' (casebook_head i cdo' d) = casebook_head i cdo' d := by
  conv_lhs => rw [casebook_head]
  rw [casebook_changed_casebook_head]
  simp

/-- Running `Casebook.content_tree__update_ordinals` on a forest it has
just rewritten yields nothing. -/
lemma casebook_yield_update_nil : ∀ ts : List CTree, ∀ i cdo,
    casebook_update_ordinals_yield i cdo (casebook_update_ordinals_tree i cdo ts) = [] := by
  intro ts
  induction ts with
  | nil => intro i cdo; rw [casebook_update_ordinals_tree, casebook_update_ordinals_yield]
  | cons t rest ihrest =>
    intro i cdo
    match t with
    | CTree.node d cs =>
      rw [casebook_update_ordinals_tree, casebook_update_ordinals_yield]
      rw [cdo_step_casebook_head, casebook_changed_casebook_head, casebook_head_casebook_head]
      rw [yield_update_nil, ihrest]
      simp

end H2O

namespace H2O

/-- `ContentNode.content_tree__descendants`: the generator yields each
loaded child, and after each child that child's own children. -/
def content_tree__descendants (t : CTree) : List CTree :=
  t.children.flatMap fun child => child :: child.children

/-- Every node of the loaded subtree below a node, at any depth (the
reference notion of "descendant" against which the generator is compared). -/
def subtree_forest : List CTree → List CTree
  | [] => []
  | CTree.node d cs :: rest =>
    CTree.node d cs :: (subtree_forest cs ++ subtree_forest rest)
  termination_by ts => sizeOf ts

/-- All proper descendants of a node in the loaded subtree. -/
def subtree_nodes (t : CTree) : List CTree :=
  subtree_forest t.children

/-- Python `lst[-1]` on an ordinal list.  In any loaded tree the ordinal
lists read here are nonempty; the embedding totalizes the subscript with
default 0 (CPython would raise `IndexError` on an empty list). -/
def pyLast (l : List Nat) : Nat :=
  l.getLastD 0

/-- `ContentNode.content_tree__get_next_available_child_ordinals`.  The
source computes `max([...] or [0]) + 1`; over `Nat`, folding `max` with
initial accumulator `0` agrees with it (`max` of a nonempty list of
naturals is unchanged by adjoining `0`).  Note the display component also
reads `x.ordinals[-1]`, only restricting to children with
`does_display_ordinals`. -/
def content_tree__get_next_available_child_ordinals (selfOrds : List Nat)
    (children : List NodeData) : List Nat × List Nat :=
  (selfOrds ++ [(children.map fun c => pyLast c.ordinals).foldl max 0 + 1],
   selfOrds ++
     [((children.filter fun c => c.does_display_ordinals).map fun c =>
       pyLast c.ordinals).foldl max 0 + 1])

/-- `Casebook.content_tree__get_next_available_child_ordinals`: the real
component reads `x.ordinals[-1]` over all top-level children, the display
component reads `x.display_ordinals[-1]` over *all* top-level children
(no restriction to children that show ordinals). -/
def casebook_get_next_available_child_ordinals (children : List NodeData) :
    List Nat × List Nat :=
  ([(children.map fun c => pyLast c.ordinals).foldl max 0 + 1],
   [(children.map fun c => pyLast c.display_ordinals).foldl max 0 + 1])

/-- The maximum of a list of naturals, 0 when empty (the spec's "maximum
existing ordinal among direct children, ordinal list empty ⇒ 1" is
`listMax + 1`). -/
def listMax : List Nat → Nat
  | [] => 0
  | x :: xs => max x (listMax xs)

/-- Modelled from the spec: the claimed behaviour of
`get_next_available_child_ordinals` — one past the maximum existing
ordinal among direct children (1 when there are none), and independently
for the display sequence one past the maximum computed only over children
that show ordinals (1 when there are none). -/
def spec_next_available_child_ordinals (selfOrds : List Nat)
    (children : List NodeData) : List Nat × List Nat :=
  (selfOrds ++ [listMax (children.map fun c => pyLast c.ordinals) + 1],
   selfOrds ++
     [listMax ((children.filter fun c => c.does_display_ordinals).map fun c =>
       pyLast c.ordinals) + 1])

lemma foldl_max_eq_listMax : ∀ (l : List Nat) (acc : Nat),
    l.foldl max acc = max acc (listMax l) := by
  intro l
  induction l with
  | nil => intro acc; simp [listMax]
  | cons x xs ih =>
    intro acc
    rw [List.foldl_cons, ih, listMax]
    omega

end H2O

namespace H2O

/-- C1 (confirmed).  After `content_tree__store` (and hence
`content_tree__repair` or the store at the end of
`content_tree__move_to`) completes on a loaded tree, every node of the
rewritten tree satisfies the path invariant: its `ordinals` equal its
parent's `ordinals` with one extra final component, and that final
component is 1 + the number of earlier siblings in the parent's children
list.  Stated for `content_tree__update_ordinals` at any recursion point,
for `ContentNode.content_tree__store`, and for
`Casebook.content_tree__store`. -/
theorem claim_C1_path_invariant :
    (∀ pOrd pDisp i cdo ts,
      checkOrds pOrd i (content_tree__update_ordinals_tree pOrd pDisp i cdo ts) = true) ∧
    (∀ t : CTree, checkOrds t.data.ordinals 0 ((content_tree__store t).1.children) = true) ∧
    (∀ ts : List CTree, checkOrds [] 0 ((casebook_content_tree__store ts).1) = true) := by
  refine ⟨fun pOrd pDisp i cdo ts => checkOrds_update ts pOrd pDisp i cdo, ?_, ?_⟩
  · intro t
    match t with
    | CTree.node d cs =>
      simpa [content_tree__store, CTree.children, CTree.data] using
        checkOrds_update cs d.ordinals d.display_ordinals 0 0
  · intro ts
    simpa [casebook_content_tree__store] using checkOrds_casebook_update ts 0 0

/-- C8 counterexample.  The claim says a second
`content_tree__repair` with no intervening mutation performs zero
additional row writes; but `ContentNode.content_tree__store` passes
`[self]` to `bulk_update_with_history` unconditionally, so a second
repair of a section node writes the section's own row again (one write,
not zero).  Here the single-node tree is already consistent, yet the
second repair's write list is nonempty. -/
theorem claim_C8_counterexample :
    (content_tree__repair
      (content_tree__repair (CTree.node ⟨1, [1], [1], true, false⟩ [])).1).2 ≠ [] := by
  simp [content_tree__repair, content_tree__store, content_tree__update_ordinals_tree,
    content_tree__update_ordinals_yield]

/-- C8 (amended).  After a first repair, `content_tree__update_ordinals`
yields no nodes, so the second repair performs no writes beyond the
unconditional `[self]` row that `ContentNode.content_tree__store` always
includes: a second `Casebook.content_tree__repair` writes zero rows, and
a second `ContentNode.content_tree__repair` writes exactly the one root
row. -/
theorem claim_C8_idempotent_repair :
    (∀ pOrd pDisp i cdo ts,
      content_tree__update_ordinals_yield pOrd pDisp i cdo
        (content_tree__update_ordinals_tree pOrd pDisp i cdo ts) = []) ∧
    (∀ ts : List CTree,
      (casebook_content_tree__repair (casebook_content_tree__repair ts).1).2 = []) ∧
    (∀ t : CTree,
      (content_tree__repair (content_tree__repair t).1).2 =
        [(content_tree__repair t).1.data]) := by
  refine ⟨fun pOrd pDisp i cdo ts => yield_update_nil ts pOrd pDisp i cdo, ?_, ?_⟩
  · intro ts
    simp only [casebook_content_tree__repair, casebook_content_tree__store]
    rw [casebook_yield_update_nil]
  · intro t
    match t with
    | CTree.node d cs =>
      simp only [content_tree__repair, content_tree__store, CTree.data]
      rw [yield_update_nil]

/-- C9 (confirmed).  `content_tree__descendants` yields exactly the
loaded children and grandchildren; a witness tree shows a
great-grandchild that is part of the loaded subtree but is never
yielded. -/
theorem claim_C9_descendants_two_levels :
    (∀ t x, x ∈ content_tree__descendants t ↔
      x ∈ t.children ∨ ∃ c ∈ t.children, x ∈ c.children) ∧
    (∃ t x, x ∈ subtree_nodes t ∧ x ∉ content_tree__descendants t) := by
  constructor
  · intro t x
    simp only [content_tree__descendants, List.mem_flatMap, List.mem_cons]
    constructor
    · rintro ⟨c, hc, hx | hx⟩
      · exact Or.inl (hx ▸ hc)
      · exact Or.inr ⟨c, hc, hx⟩
    · rintro (hx | ⟨c, hc, hx⟩)
      · exact ⟨x, hx, Or.inl rfl⟩
      · exact ⟨c, hc, Or.inr hx⟩
  · refine ⟨CTree.node ⟨0, [], [], true, false⟩
      [CTree.node ⟨1, [1], [1], true, false⟩
        [CTree.node ⟨2, [1, 1], [1, 1], true, false⟩
          [CTree.node ⟨3, [1, 1, 1], [1, 1, 1], true, false⟩ []]]],
      CTree.node ⟨3, [1, 1, 1], [1, 1, 1], true, false⟩ [], ?_, ?_⟩
    · simp [subtree_nodes, subtree_forest, CTree.children]
    · simp [content_tree__descendants, CTree.children]

/-- C2 counterexample.  For a `Casebook` parent the display component is
not "one past the maximum ordinal over children that show ordinals": with
three repaired children of which the middle one hides its ordinal, the
code returns `[3]` (one past the maximum *display* ordinal over *all*
children) where the claim requires `[4]`. -/
theorem claim_C2_counterexample :
    casebook_get_next_available_child_ordinals
        [⟨1, [1], [1], true, false⟩, ⟨2, [2], [1], false, false⟩,
         ⟨3, [3], [2], true, false⟩] ≠
      spec_next_available_child_ordinals []
        [⟨1, [1], [1], true, false⟩, ⟨2, [2], [1], false, false⟩,
         ⟨3, [3], [2], true, false⟩] := by
  decide

/-- C2 (amended).  `ContentNode.content_tree__get_next_available_child_ordinals`
behaves exactly as claimed (both components are one past a maximum of the
children's last *ordinals*, the display component restricted to children
that show ordinals, 1 when the relevant set is empty).  For a `Casebook`
parent the real component is as claimed, but the display component is one
past the maximum last *display* ordinal across *all* top-level children
(1 when there are no children). -/
theorem claim_C2_next_available_child_ordinals :
    (∀ selfOrds children,
      content_tree__get_next_available_child_ordinals selfOrds children =
        spec_next_available_child_ordinals selfOrds children) ∧
    (∀ children,
      (casebook_get_next_available_child_ordinals children).1 =
        (spec_next_available_child_ordinals [] children).1) ∧
    (∀ children,
      (casebook_get_next_available_child_ordinals children).2 =
        [listMax (children.map fun c => pyLast c.display_ordinals) + 1]) := by
  refine ⟨?_, ?_, ?_⟩
  · intro selfOrds children
    simp [content_tree__get_next_available_child_ordinals,
      spec_next_available_child_ordinals, foldl_max_eq_listMax]
  · intro children
    simp [casebook_get_next_available_child_ordinals,
      spec_next_available_child_ordinals, foldl_max_eq_listMax]
  · intro children
    simp [casebook_get_next_available_child_ordinals, foldl_max_eq_listMax]

end H2O

namespace H2O

/-- One `ContentAnnotation` row: primary key, `global_start_offset`,
`global_end_offset` (integers; `-1,-1` is the invalidation sentinel) and
the free-text `content`. -/
structure Ann where
  id : Nat
  gStart : Int
  gEnd : Int
  content : String
  deriving Repr, DecidableEq

/-- `ContentAnnotationQuerySet.valid`:
`self.exclude(global_start_offset=-1, global_end_offset=-1)` — rows where
*both* offsets are `-1` are excluded. -/
def valid (annos : List Ann) : List Ann :=
  annos.filter fun a => !(a.gStart == -1 && a.gEnd == -1)

/-- The per-annotation body of the loop in
`ContentAnnotation.update_annotations`: compute the adjusted offsets,
skip (leave the row unchanged, write nothing) when both are unchanged,
store the `(-1, -1)` sentinel when the adjusted offsets coincide, and
otherwise store the adjusted offsets.  The second component records
whether the row is appended to `to_update` (written). -/
def reconcileOne (adjust : Int → Int) (a : Ann) : Ann × Bool :=
  let newStart := adjust a.gStart
  let newEnd := adjust a.gEnd
  if newStart == a.gStart && newEnd == a.gEnd then (a, false)
  else if newStart == newEnd then ({ a with gStart := -1, gEnd := -1 }, true)
  else ({ a with gStart := newStart, gEnd := newEnd }, true)

/-- `ContentAnnotation.update_annotations`, resulting row state.  The
queryset is filtered by `global_end_offset__gte=first_delta_offset`
before the loop; rows outside the filter keep their stored offsets.
`adjust` and `firstDelta` stand for the `AnnotationUpdater` built from
the two texts (the `before == after` early return is the case of this
function never being reached). -/
def update_annotations (adjust : Int → Int) (firstDelta : Int)
    (annos : List Ann) : List Ann :=
  annos.map fun a => if firstDelta ≤ a.gEnd then (reconcileOne adjust a).1 else a

/-- `AnnotatedModel.save` when `content` changed, resulting annotation row
state: `update_annotations` runs over `related_annotations()`, which is
the `valid()` queryset of the resource's annotations, so a row enters the
loop only if it is valid *and* passes the `gte` filter; all other rows
keep their stored offsets. -/
def annotated_model_save (adjust : Int → Int) (firstDelta : Int)
    (annos : List Ann) : List Ann :=
  annos.map fun a =>
    if !(a.gStart == -1 && a.gEnd == -1) && firstDelta ≤ a.gEnd then
      (reconcileOne adjust a).1
    else a

/-- Modelled from the spec: `web/main/differ.py` (`AnnotationUpdater`) is
not under `src/`.  An edit script per §4.2 — `Equal`, `Insert`, `Delete`
operations covering `before` and `after` completely and contiguously,
each captured by its length. -/
inductive DiffOp where
  | equal (n : Nat)
  | ins (n : Nat)
  | del (n : Nat)
  deriving Repr, DecidableEq

/-- Modelled from the spec: `first_delta_offset` — the lowest
`before`-offset touched by a non-`Equal` operation, or `len(before)` when
the texts are identical.  `b` is the current `before` position. -/
def firstDeltaAux (b : Nat) (lenBefore : Nat) : List DiffOp → Nat
  | [] => lenBefore
  | .equal n :: rest => firstDeltaAux (b + n) lenBefore rest
  | .ins _ :: _ => b
  | .del _ :: _ => b

/-- Modelled from the spec: `get_first_delta_offset`. -/
def first_delta_offset (ops : List DiffOp) (lenBefore : Nat) : Nat :=
  firstDeltaAux 0 lenBefore ops

/-- Modelled from the spec: `adjust_offset` — walk the edit script keeping
the current `before` position `b` and `after` position `a`; an offset
inside an `Equal` region shifts by the cumulative delta, an offset inside
a `Delete` region collapses to the region's start in `after`, inserts
advance the `after` position, and offsets beyond the end clamp to the end
of `after`. -/
def adjustAux (b a : Int) (off : Int) : List DiffOp → Int
  | [] => a
  | .equal n :: rest =>
    if off < b + (n : Int) then a + (off - b) else adjustAux (b + n) (a + n) off rest
  | .del n :: rest =>
    if off < b + (n : Int) then a else adjustAux (b + n) a off rest
  | .ins n :: rest => adjustAux b (a + n) off rest

/-- Modelled from the spec: `adjust_offset`. -/
def adjust_offset (ops : List DiffOp) (off : Int) : Int :=
  adjustAux 0 0 off ops

/-- C4 counterexample.  A zero-width annotation at `(5, 5)` on
`before = "abcdef"` edited to `"abcXef"` (edit script
`[Equal 3, Delete 1, Insert 1, Equal 2]`): the row passes the
`gte` filter (`5 ≥ first_delta_offset = 3`), its adjusted start equals
its adjusted end (`adjust_offset 5 = 5` on both), yet the stored offsets
stay `(5, 5)` — the skip-unchanged check precedes the deletion-sentinel
check — so they do not become `(-1, -1)` as claimed. -/
theorem claim_C4_counterexample :
    (first_delta_offset [.equal 3, .del 1, .ins 1, .equal 2] 6 : Int) ≤ (5 : Int) ∧
    adjust_offset [.equal 3, .del 1, .ins 1, .equal 2] 5 =
      adjust_offset [.equal 3, .del 1, .ins 1, .equal 2] 5 ∧
    update_annotations (adjust_offset [.equal 3, .del 1, .ins 1, .equal 2])
      (first_delta_offset [.equal 3, .del 1, .ins 1, .equal 2] 6)
      [⟨1, 5, 5, "note"⟩] = [⟨1, 5, 5, "note"⟩] ∧
    ¬ update_annotations (adjust_offset [.equal 3, .del 1, .ins 1, .equal 2])
      (first_delta_offset [.equal 3, .del 1, .ins 1, .equal 2] 6)
      [⟨1, 5, 5, "note"⟩] = [⟨1, -1, -1, "note"⟩] := by
  refine ⟨by decide, rfl, by decide, by decide⟩

/-- C4 (amended).  For every annotation processed by `update_annotations`
whose span is nonempty (`start < end`) and whose adjusted start equals
its adjusted end, the stored offsets become exactly `(-1, -1)` (for a
zero-width annotation whose offsets are unchanged, the skip-unchanged
check fires first and the row keeps its offsets); and `valid()` excludes
exactly the annotations whose start and end offsets are both `-1`. -/
theorem claim_C4_deletion_sentinel :
    (∀ (adjust : Int → Int) (firstDelta : Int) (annos : List Ann) (k : Nat) (a : Ann),
      annos.get? k = some a → firstDelta ≤ a.gEnd → a.gStart < a.gEnd →
      adjust a.gStart = adjust a.gEnd →
      (update_annotations adjust firstDelta annos).get? k =
        some { a with gStart := -1, gEnd := -1 }) ∧
    (∀ (annos : List Ann) (a : Ann),
      a ∈ valid annos ↔ a ∈ annos ∧ ¬(a.gStart = -1 ∧ a.gEnd = -1)) := by
  constructor
  · intro adjust firstDelta annos k a hk hge hlt hadj
    have hne : ¬(adjust a.gStart == a.gStart && adjust a.gEnd == a.gEnd) = true := by
      intro hb
      simp only [Bool.and_eq_true, beq_iff_eq] at hb
      omega
    have hpos : (adjust a.gStart == adjust a.gEnd) = true := by
      simp [hadj]
    rw [update_annotations, List.get?_map, hk, Option.map_some']
    rw [if_pos hge]
    simp only [reconcileOne]
    rw [if_neg hne, if_pos hpos]
  · intro annos a
    simp only [valid, List.mem_filter, Bool.not_eq_eq_eq_not, Bool.not_true,
      Bool.and_eq_false_iff, beq_eq_false_iff_ne, ne_eq]
    tauto

/-- C10 (confirmed).  Invalidation is permanent: a row whose offsets are
the `(-1, -1)` sentinel is excluded from the `valid()` queryset that
`AnnotatedModel.save` passes to `update_annotations`, so no save of the
owning resource's text ever changes its offsets again (for any adjustment
function and any first-delta cutoff, i.e. for any subsequent edit). -/
theorem claim_C10_invalidation_permanent :
    ∀ (adjust : Int → Int) (firstDelta : Int) (annos : List Ann) (k : Nat) (a : Ann),
      annos.get? k = some a → a.gStart = -1 → a.gEnd = -1 →
      (annotated_model_save adjust firstDelta annos).get? k = some a := by
  intro adjust firstDelta annos k a hk hs he
  rw [annotated_model_save, List.get?_map, hk, Option.map_some']
  simp [hs, he]

/-- C10 witness: a sentinel row survives a save unchanged while its
sibling row is shifted. -/
theorem claim_C10_witness :
    (annotated_model_save (fun o => o + 3) 0
      [⟨1, -1, -1, "gone"⟩, ⟨2, 4, 8, "live"⟩]).get? 0 =
      some ⟨1, -1, -1, "gone"⟩ :=
  claim_C10_invalidation_permanent (fun o => o + 3) 0
    [⟨1, -1, -1, "gone"⟩, ⟨2, 4, 8, "live"⟩] 0 ⟨1, -1, -1, "gone"⟩ rfl rfl rfl

/-- C4 witness: a nonempty-span annotation whose span is entirely deleted
gets the sentinel, and the `valid()` characterization at a concrete
list. -/
theorem claim_C4_witness :
    (update_annotations (fun _ => 0) 0 [⟨1, 1, 3, "n"⟩]).get? 0 =
      some ⟨1, -1, -1, "n"⟩ ∧
    (⟨1, -1, -1, "n"⟩ : Ann) ∉ valid [(⟨1, -1, -1, "n"⟩ : Ann)] := by
  constructor
  · exact claim_C4_deletion_sentinel.1 (fun _ => 0) 0 [⟨1, 1, 3, "n"⟩] 0 ⟨1, 1, 3, "n"⟩
      rfl (by decide) (by decide) rfl
  · intro hmem
    have h := (claim_C4_deletion_sentinel.2 [(⟨1, -1, -1, "n"⟩ : Ann)]
      (⟨1, -1, -1, "n"⟩ : Ann)).mp hmem
    exact h.2 ⟨rfl, rfl⟩

end H2O

namespace H2O

/-- `Casebook.LifeCycle`. -/
inductive LifeCycle where
  | privately_editing
  | newly_cloned
  | draft
  | published
  | archived
  | revising
  | previous_save
  deriving Repr, DecidableEq

open LifeCycle

/-- The fixed `transition_options` table of `Casebook.can_transition_to`,
keyed by `(current, target)`.  Diagonal pairs are absent from the Python
dict (they would raise `KeyError`) but are unreachable: the method
returns `False` first when `self.state == target_value`; the catch-all
arm below exists only to totalize the Lean match on those unreachable
keys. -/
def transition_options : LifeCycle → LifeCycle → Bool
  | privately_editing, newly_cloned => false
  | privately_editing, draft => false
  | privately_editing, published => true
  | privately_editing, revising => false
  | privately_editing, archived => true
  | privately_editing, previous_save => true
  | newly_cloned, privately_editing => true
  | newly_cloned, draft => false
  | newly_cloned, published => true
  | newly_cloned, revising => false
  | newly_cloned, archived => true
  | newly_cloned, previous_save => false
  | draft, privately_editing => false
  | draft, newly_cloned => false
  | draft, published => true
  | draft, revising => false
  | draft, archived => false
  | draft, previous_save => true
  | published, privately_editing => true
  | published, newly_cloned => false
  | published, draft => false
  | published, revising => true
  | published, archived => false
  | published, previous_save => false
  | revising, privately_editing => true
  | revising, newly_cloned => false
  | revising, draft => false
  | revising, published => true
  | revising, archived => false
  | revising, previous_save => false
  | archived, privately_editing => true
  | archived, newly_cloned => false
  | archived, draft => false
  | archived, published => false
  | archived, revising => false
  | archived, previous_save => false
  | previous_save, privately_editing => false
  | previous_save, newly_cloned => false
  | previous_save, draft => false
  | previous_save, published => false
  | previous_save, revising => false
  | previous_save, archived => false
  | _, _ => false

/-- `Casebook.can_transition_to`: `False` when the target equals the
current state, otherwise the fixed table. -/
def can_transition_to (state target : LifeCycle) : Bool :=
  if state == target then false else transition_options state target

/-- The casebook fields that `transition_to` / `merge_draft` read or
write: the lifecycle `state`, the four top-level metadata fields, and the
`draft` one-to-one reference (by id). -/
structure CB where
  state : LifeCycle
  title : String
  subtitle : String
  description : String
  headnote : String
  draft : Option Nat
  deriving Repr, DecidableEq

/-- Errors raised by the lifecycle methods (`ValueError` in the source,
distinguished here by message). -/
inductive LifeErr where
  | cannotTransition
  | onlyDraftsMayBeMerged
  | missingRelatedCasebook
  deriving Repr, DecidableEq

/-- `Casebook.merge_draft` on the two documents it touches: requires the
receiver to be in `DRAFT` state, swaps `title`, `subtitle`, `description`
and `headnote` between draft and parent, sets the draft's state to
`PREVIOUS_SAVE` and the parent's to `PUBLISHED`, and clears both `draft`
references.  (The content-node reconciliation and edit-log bookkeeping of
the method act on other rows and are not needed by the claims.)  Returns
`(draft, parent)` after the merge. -/
def merge_draft (draftDoc parent : CB) : Except LifeErr (CB × CB) :=
  if draftDoc.state != LifeCycle.draft then .error .onlyDraftsMayBeMerged
  else
    .ok
      ({ draftDoc with
          title := parent.title, subtitle := parent.subtitle,
          description := parent.description, headnote := parent.headnote,
          state := previous_save, draft := none },
       { parent with
          title := draftDoc.title, subtitle := draftDoc.subtitle,
          description := draftDoc.description, headnote := draftDoc.headnote,
          state := published, draft := none })

/-- The outcome of `Casebook.transition_to`: either the single casebook
with its new state, or the `(draft, parent)` pair produced by a merge. -/
inductive TransitionOutcome where
  | single (cb : CB)
  | merged (draftDoc parent : CB)
  deriving Repr, DecidableEq

/-- `Casebook.transition_to`.  A disallowed transition raises before any
state change.  Transitioning to `PUBLISHED` merges instead of flipping
state when the casebook has a draft (`self.draft.merge_draft()`, the
draft row passed as `draftDoc`) or is itself a draft
(`self.merge_draft()`, the parent row — `self.draft_of` — passed as
`parentDoc`); otherwise, and for every other target, the state is simply
set.  `missingRelatedCasebook` models a dangling reference (unreachable
with consistent rows). -/
def transition_to (self : CB) (draftDoc parentDoc : Option CB)
    (target : LifeCycle) : Except LifeErr TransitionOutcome :=
  if !(can_transition_to self.state target) then .error .cannotTransition
  else if target == published then
    if self.draft.isSome then
      match draftDoc with
      | some d => (merge_draft d self).map fun p => .merged p.1 p.2
      | none => .error .missingRelatedCasebook
    else if self.state == LifeCycle.draft then
      match parentDoc with
      | some p => (merge_draft self p).map fun q => .merged q.1 q.2
      | none => .error .missingRelatedCasebook
    else .ok (.single { self with state := target })
  else .ok (.single { self with state := target })

/-- C5 (confirmed).  From `PREVIOUS_SAVE`, `can_transition_to` is false
for every target; and for every casebook and disallowed
`(current, target)` pair, `transition_to` returns the
`cannotTransition` error before touching any state (the error result
carries no modified document, so no partial state change occurs). -/
theorem claim_C5_previous_save_terminal :
    (∀ target : LifeCycle, can_transition_to previous_save target = false) ∧
    (∀ (self : CB) (draftDoc parentDoc : Option CB) (target : LifeCycle),
      can_transition_to self.state target = false →
      transition_to self draftDoc parentDoc target = .error .cannotTransition) := by
  constructor
  · intro target
    cases target <;> decide
  · intro self draftDoc parentDoc target h
    rw [transition_to.eq_def, h]
    rfl

/-- C5 witness: a `PREVIOUS_SAVE` casebook cannot be published. -/
theorem claim_C5_witness :
    transition_to ⟨previous_save, "t", "s", "d", "h", none⟩ none none published =
      .error .cannotTransition :=
  claim_C5_previous_save_terminal.2 ⟨previous_save, "t", "s", "d", "h", none⟩
    none none published (by decide)

end H2O

namespace H2O

open LifeCycle

/-- C6 (confirmed).  `transition_to(PUBLISHED)` merges instead of flipping
state: (a) when the casebook has a draft (which, per the draft-creation
invariant, is in `DRAFT` state) the result is a merge in which the
draft's state becomes `PREVIOUS_SAVE`, the parent's becomes `PUBLISHED`,
both `draft` references are cleared — in particular the parent's — and
the two documents' `title`, `subtitle`, `description` and `headnote` are
swapped; (b) likewise when the casebook is itself a draft, merging with
its parent; and (c) `merge_draft` raises on any document that is not in
`DRAFT` state. -/
theorem claim_C6_publish_merges :
    (∀ (self d : CB) (parentDoc : Option CB) (i : Nat),
      self.draft = some i → can_transition_to self.state published = true →
      d.state = LifeCycle.draft →
      transition_to self (some d) parentDoc published =
        .ok (.merged
          { d with
              title := self.title, subtitle := self.subtitle,
              description := self.description, headnote := self.headnote,
              state := previous_save, draft := none }
          { self with
              title := d.title, subtitle := d.subtitle,
              description := d.description, headnote := d.headnote,
              state := published, draft := none })) ∧
    (∀ (self p : CB) (draftDoc : Option CB),
      self.state = LifeCycle.draft → self.draft = none →
      transition_to self draftDoc (some p) published =
        .ok (.merged
          { self with
              title := p.title, subtitle := p.subtitle,
              description := p.description, headnote := p.headnote,
              state := previous_save, draft := none }
          { p with
              title := self.title, subtitle := self.subtitle,
              description := self.description, headnote := self.headnote,
              state := published, draft := none })) ∧
    (∀ d p : CB, d.state ≠ LifeCycle.draft →
      merge_draft d p = .error .onlyDraftsMayBeMerged) := by
  refine ⟨?_, ?_, ?_⟩
  · intro self d parentDoc i hdraft hcan hstate
    rw [transition_to.eq_def, hcan]
    simp only [Bool.not_true, Bool.false_eq_true, if_false, beq_self_eq_true, if_true,
      hdraft, Option.isSome_some, merge_draft, hstate]
    rfl
  · intro self p draftDoc hstate hnone
    have hcan : can_transition_to self.state published = true := by
      rw [hstate]; decide
    rw [transition_to.eq_def, hcan]
    simp only [Bool.not_true, Bool.false_eq_true, if_false, beq_self_eq_true, if_true,
      hnone, Option.isSome_none, hstate, merge_draft]
    rfl
  · intro d p hne
    rw [merge_draft.eq_def]
    have h : (d.state != LifeCycle.draft) = true := bne_iff_ne.mpr hne
    rw [h]
    rfl

/-- C6 witness: publishing a revising casebook that has a draft merges the
two documents, swapping metadata. -/
theorem claim_C6_witness :
    transition_to ⟨revising, "T", "S", "D", "H", some 7⟩
        (some ⟨LifeCycle.draft, "t2", "s2", "d2", "h2", none⟩) none published =
      .ok (.merged ⟨previous_save, "T", "S", "D", "H", none⟩
        ⟨published, "t2", "s2", "d2", "h2", none⟩) :=
  claim_C6_publish_merges.1 ⟨revising, "T", "S", "D", "H", some 7⟩
    ⟨LifeCycle.draft, "t2", "s2", "d2", "h2", none⟩ none 7 rfl (by decide) rfl

end H2O

namespace H2O

/-- `resource_type` values of a resource-bearing `ContentNode` (sections
and temporary placeholders carry no body: `resource_id is None`). -/
inductive RKind where
  | textBlock
  | link
  | legalDocument
  | caseDoc
  deriving Repr, DecidableEq

/-- The `ContentNode` columns read by the cloning pipeline: primary key,
`provenance`, the `(resource_type, resource_id)` body reference, and the
node's annotations. -/
structure SrcNode where
  id : Nat
  provenance : List Nat
  resource_type : Option RKind
  resource_id : Option Nat
  annotations : List Ann
  deriving Repr, DecidableEq

/-- Modelled from the spec: `clone_model_instance` lives in
`web/main/utils.py`, which is not under `src/` — a field-for-field copy
with the primary key cleared (a fresh id is assigned on save) and the
given overrides applied.  Here, the override used by
`collect_cloning_nodes`: `provenance = old.provenance + [old.id]`. -/
def clone_model_instance_node (n : SrcNode) : SrcNode :=
  { n with id := 0, provenance := n.provenance ++ [n.id] }

/-- `Casebook.collect_cloning_nodes`, content-node part: one clone per
source node, in order. -/
def collect_cloned_nodes (nodes : List SrcNode) : List SrcNode :=
  nodes.map clone_model_instance_node

/-- `Casebook.collect_cloning_nodes`, annotations part: every annotation
of every source node is cloned (`clone_model_instance(old_annotation)`,
pk cleared) and paired with its owning cloned node, recorded here by the
node's position. -/
def collect_cloned_anns (nodes : List SrcNode) : List (Ann × Nat) :=
  nodes.enum.flatMap fun p => p.2.annotations.map fun a => ({ a with id := 0 }, p.1)

/-- `Casebook.collect_cloning_nodes` resource part together with
`save_and_parent_cloned_resources`: a node's body object is cloned
exactly when it has one (`resource_id`) and its `resource_type` is not in
`{"Case", "LegalDocument"}`; `bulk_create` assigns the cloned `TextBlock`
bodies fresh ids from `tb` onwards and the cloned `Link` bodies fresh ids
from `lk` onwards, and each cloned node's `resource_id` is repointed at
its cloned body.  Nodes whose body kind is shared-by-reference keep their
`resource_id` unchanged. -/
def save_and_parent_cloned_resources : List SrcNode → Nat → Nat → List SrcNode
  | [], _, _ => []
  | n :: rest, tb, lk =>
    match n.resource_id, n.resource_type with
    | some _, some .textBlock =>
      { n with resource_id := some tb } :: save_and_parent_cloned_resources rest (tb + 1) lk
    | some _, some .link =>
      { n with resource_id := some lk } :: save_and_parent_cloned_resources rest tb (lk + 1)
    | _, _ => n :: save_and_parent_cloned_resources rest tb lk

/-- The node/annotation outcome of `Casebook.clone_nodes` (without
`append`): collect the clones, persist and re-point the deep-copied
bodies, and keep the cloned annotations attached to their cloned nodes. -/
def clone_nodes (nodes : List SrcNode) (tb lk : Nat) :
    List SrcNode × List (Ann × Nat) :=
  (save_and_parent_cloned_resources (collect_cloned_nodes nodes) tb lk,
   collect_cloned_anns nodes)

lemma save_resources_length : ∀ (ns : List SrcNode) (tb lk : Nat),
    (save_and_parent_cloned_resources ns tb lk).length = ns.length := by
  intro ns
  induction ns with
  | nil => intro tb lk; rfl
  | cons n rest ih =>
    intro tb lk
    rw [save_and_parent_cloned_resources]
    rcases hri : n.resource_id with _ | r <;> rcases hrt : n.resource_type with _ | k
    · simp [ih]
    · cases k <;> simp [ih]
    · simp [ih]
    · cases k <;> simp [ih]

/-- Element-wise description of `save_and_parent_cloned_resources`: every
field except `resource_id` is preserved; a `TextBlock`/`Link` body gets a
fresh id at least `min tb lk`; a shared or absent body keeps
`resource_id`. -/
lemma save_resources_get : ∀ (ns : List SrcNode) (tb lk k : Nat) (n : SrcNode),
    ns.get? k = some n →
    ∃ m, (save_and_parent_cloned_resources ns tb lk).get? k = some m ∧
      m.id = n.id ∧ m.provenance = n.provenance ∧
      m.resource_type = n.resource_type ∧ m.annotations = n.annotations ∧
      ((n.resource_id.isSome ∧
          (n.resource_type = some .textBlock ∨ n.resource_type = some .link)) →
        ∃ r, m.resource_id = some r ∧ min tb lk ≤ r) ∧
      ((n.resource_id = none ∨ n.resource_type = some .legalDocument ∨
          n.resource_type = some .caseDoc ∨ n.resource_type = none) →
        m.resource_id = n.resource_id) := by
  intro ns
  induction ns with
  | nil => intro tb lk k n h; simp at h
  | cons hd rest ih =>
    intro tb lk k n h
    rw [save_and_parent_cloned_resources]
    match k with
    | 0 =>
      simp only [List.get?_cons_zero, Option.some.injEq] at h
      subst h
      rcases hri : hd.resource_id with _ | r <;> rcases hrt : hd.resource_type with _ | kk
      · exact ⟨hd, by simp, rfl, rfl, hrt, rfl, by simp, fun _ => hri⟩
      · cases kk <;> exact ⟨hd, by simp, rfl, rfl, hrt, rfl, by simp, fun _ => hri⟩
      · exact ⟨hd, by simp, rfl, rfl, hrt, rfl, by simp, fun _ => hri⟩
      · cases kk
        · refine ⟨{ hd with resource_id := some tb }, by simp [hrt], rfl, rfl, hrt, rfl,
            fun _ => ⟨tb, rfl, Nat.min_le_left tb lk⟩, ?_⟩
          intro hcase
          simp at hcase
        · refine ⟨{ hd with resource_id := some lk }, by simp [hrt], rfl, rfl, hrt, rfl,
            fun _ => ⟨lk, rfl, Nat.min_le_right tb lk⟩, ?_⟩
          intro hcase
          simp at hcase
        · refine ⟨hd, by simp, rfl, rfl, hrt, rfl, ?_, fun _ => hri⟩
          intro hsome
          simp at hsome
        · refine ⟨hd, by simp, rfl, rfl, hrt, rfl, ?_, fun _ => hri⟩
          intro hsome
          simp at hsome
    | k' + 1 =>
      simp only [List.get?_cons_succ] at h
      rcases hri : hd.resource_id with _ | r <;> rcases hrt : hd.resource_type with _ | kk
      · simpa [hri, hrt] using ih tb lk k' n h
      · cases kk <;> simpa [hri, hrt] using ih tb lk k' n h
      · simpa [hri, hrt] using ih tb lk k' n h
      · cases kk
        · obtain ⟨m, hm, rest'⟩ := ih (tb + 1) lk k' n h
          refine ⟨m, by simpa [hri, hrt] using hm, rest'.1, rest'.2.1, rest'.2.2.1,
            rest'.2.2.2.1, ?_, rest'.2.2.2.2.2⟩
          intro hx
          obtain ⟨rr, hrr, hge⟩ := rest'.2.2.2.2.1 hx
          exact ⟨rr, hrr, le_trans (by omega) hge⟩
        · obtain ⟨m, hm, rest'⟩ := ih tb (lk + 1) k' n h
          refine ⟨m, by simpa [hri, hrt] using hm, rest'.1, rest'.2.1, rest'.2.2.1,
            rest'.2.2.2.1, ?_, rest'.2.2.2.2.2⟩
          intro hx
          obtain ⟨rr, hrr, hge⟩ := rest'.2.2.2.2.1 hx
          exact ⟨rr, hrr, le_trans (by omega) hge⟩
        · simpa [hri, hrt] using ih tb lk k' n h
        · simpa [hri, hrt] using ih tb lk k' n h

end H2O

namespace H2O

lemma collect_cloned_anns_mem (nodes : List SrcNode) (a : Ann) (j : Nat) :
    (a, j) ∈ collect_cloned_anns nodes ↔
      ∃ n, nodes.get? j = some n ∧ ∃ b ∈ n.annotations, a = { b with id := 0 } := by
  simp only [collect_cloned_anns, List.mem_flatMap, List.mem_enum_iff_get?, List.mem_map,
    Prod.mk.injEq]
  constructor
  · rintro ⟨⟨i, n⟩, hin, b, hb, ha, hj⟩
    exact ⟨n, hj ▸ hin, b, hb, ha.symm⟩
  · rintro ⟨n, hn, b, hb, ha⟩
    exact ⟨(j, n), hn, b, hb, ha.symm, rfl⟩

/-- C7 (confirmed).  Cloning the `n` content nodes of a casebook produces
exactly `n` cloned nodes; the clone at each position has the source
node's id appended to the source's provenance; the cloned annotations are
exactly the annotations of each source node, attached to the clone at the
same position; a legal-document (or legacy case) body is shared by
reference (`resource_id` unchanged); and a text-block or link body is
deep-copied — provided the ids `bulk_create` hands out are fresh (larger
than every existing body id), the clone's `resource_id` differs from
every source node's `resource_id`, so mutating a cloned body can never
change a source body. -/
theorem claim_C7_clone_provenance_and_bodies :
    ∀ (nodes : List SrcNode) (tb lk : Nat),
      ((clone_nodes nodes tb lk).1.length = nodes.length) ∧
      (∀ k n, nodes.get? k = some n →
        ∃ m, (clone_nodes nodes tb lk).1.get? k = some m ∧
          m.provenance = n.provenance ++ [n.id] ∧
          m.resource_type = n.resource_type ∧
          m.annotations = n.annotations) ∧
      (∀ a j, (a, j) ∈ (clone_nodes nodes tb lk).2 ↔
        ∃ n, nodes.get? j = some n ∧ ∃ b ∈ n.annotations, a = { b with id := 0 }) ∧
      (∀ k n, nodes.get? k = some n →
        (n.resource_type = some .legalDocument ∨ n.resource_type = some .caseDoc) →
        ∃ m, (clone_nodes nodes tb lk).1.get? k = some m ∧
          m.resource_id = n.resource_id) ∧
      ((∀ n' ∈ nodes, ∀ r, n'.resource_id = some r → r < tb ∧ r < lk) →
        ∀ k n, nodes.get? k = some n →
        (n.resource_type = some .textBlock ∨ n.resource_type = some .link) →
        n.resource_id.isSome →
        ∃ m, (clone_nodes nodes tb lk).1.get? k = some m ∧
          ∀ n' ∈ nodes, ∀ r, n'.resource_id = some r → m.resource_id ≠ some r) := by
  intro nodes tb lk
  refine ⟨?_, ?_, ?_, ?_, ?_⟩
  · rw [clone_nodes, save_resources_length]
    simp [collect_cloned_nodes]
  · intro k n hk
    have hk' : (collect_cloned_nodes nodes).get? k = some (clone_model_instance_node n) := by
      rw [collect_cloned_nodes, List.get?_map, hk, Option.map_some']
    obtain ⟨m, hm, hid, hprov, hrt, hann, _, _⟩ :=
      save_resources_get (collect_cloned_nodes nodes) tb lk k _ hk'
    exact ⟨m, hm, by rw [hprov]; rfl, by rw [hrt]; rfl, by rw [hann]; rfl⟩
  · intro a j
    exact collect_cloned_anns_mem nodes a j
  · intro k n hk hshared
    have hk' : (collect_cloned_nodes nodes).get? k = some (clone_model_instance_node n) := by
      rw [collect_cloned_nodes, List.get?_map, hk, Option.map_some']
    obtain ⟨m, hm, _, _, _, _, _, hkeep⟩ :=
      save_resources_get (collect_cloned_nodes nodes) tb lk k _ hk'
    refine ⟨m, hm, ?_⟩
    have : m.resource_id = (clone_model_instance_node n).resource_id := by
      apply hkeep
      rcases hshared with h | h
      · exact Or.inr (Or.inl (by simpa [clone_model_instance_node] using h))
      · exact Or.inr (Or.inr (Or.inl (by simpa [clone_model_instance_node] using h)))
    simpa [clone_model_instance_node] using this
  · intro hfresh k n hk hdeep hsome
    have hk' : (collect_cloned_nodes nodes).get? k = some (clone_model_instance_node n) := by
      rw [collect_cloned_nodes, List.get?_map, hk, Option.map_some']
    obtain ⟨m, hm, _, _, _, _, hfreshid, _⟩ :=
      save_resources_get (collect_cloned_nodes nodes) tb lk k _ hk'
    obtain ⟨r, hr, hge⟩ := hfreshid ⟨by simpa [clone_model_instance_node] using hsome,
      by simpa [clone_model_instance_node] using hdeep⟩
    refine ⟨m, hm, ?_⟩
    intro n' hn' r' hr' heq
    have hlt := hfresh n' hn' r' hr'
    rw [hr] at heq
    have : r = r' := by simpa using heq
    omega

/-- C7 witness: a two-node casebook (a text block and a legal document)
cloned with fresh body ids 100/200. -/
theorem claim_C7_witness :
    ((clone_nodes
      [⟨10, [], some .textBlock, some 5, [⟨1, 0, 3, "a"⟩]⟩,
       ⟨11, [4], some .legalDocument, some 6, []⟩] 100 200).1.length = 2) ∧
    (∃ m, (clone_nodes
      [⟨10, [], some .textBlock, some 5, [⟨1, 0, 3, "a"⟩]⟩,
       ⟨11, [4], some .legalDocument, some 6, []⟩] 100 200).1.get? 1 = some m ∧
      m.resource_id = some 6) ∧
    (∃ m, (clone_nodes
      [⟨10, [], some .textBlock, some 5, [⟨1, 0, 3, "a"⟩]⟩,
       ⟨11, [4], some .legalDocument, some 6, []⟩] 100 200).1.get? 0 = some m ∧
      ∀ n' ∈ [(⟨10, [], some .textBlock, some 5, [⟨1, 0, 3, "a"⟩]⟩ : SrcNode),
              ⟨11, [4], some .legalDocument, some 6, []⟩],
        ∀ r, n'.resource_id = some r → m.resource_id ≠ some r) := by
  refine ⟨?_, ?_, ?_⟩
  · exact (claim_C7_clone_provenance_and_bodies _ 100 200).1
  · exact (claim_C7_clone_provenance_and_bodies _ 100 200).2.2.2.1 1
      ⟨11, [4], some .legalDocument, some 6, []⟩ rfl (Or.inl rfl)
  · exact (claim_C7_clone_provenance_and_bodies _ 100 200).2.2.2.2
      (by decide) 0 ⟨10, [], some .textBlock, some 5, [⟨1, 0, 3, "a"⟩]⟩ rfl
      (Or.inl rfl) rfl

end H2O

namespace H2O

/-- `os.path.commonprefix` on two ordinal sequences (elementwise longest
common prefix), as used by `content_tree__move_to` to find the common
grandparent of the old and new locations. -/
def commonPref : List Nat → List Nat → List Nat
  | a :: as, b :: bs => if a = b then a :: commonPref as bs else []
  | _, _ => []

/-- `content_tree__get_same_tree_node_from_ordinals`, node case:
`ContentNode.objects.get(ordinals=..., casebook_id=...)`, modelled as the
first preorder node carrying the given `ordinals` (the Django `get`
assumes the row is unique). -/
def findByOrd (ords : List Nat) : List CTree → Option CTree
  | [] => none
  | CTree.node d cs :: rest =>
    if d.ordinals == ords then some (CTree.node d cs)
    else
      match findByOrd ords cs with
      | some t => some t
      | none => findByOrd ords rest
  termination_by ts => sizeOf ts

/-- A position in the loaded tree: either the `Casebook` root (whose
children are the top-level forest) or a `ContentNode`. -/
inductive Loc where
  | root (cs : List CTree)
  | node (t : CTree)
  deriving Repr

/-- `content_tree__children` at a location. -/
def Loc.kids : Loc → List CTree
  | .root cs => cs
  | .node t => t.children

/-- `is_resource` at a location (`Casebook.is_resource` is always
`False`). -/
def Loc.isRes : Loc → Bool
  | .root _ => false
  | .node t => t.data.is_resource

/-- `content_tree__get_same_tree_node_from_ordinals`: the casebook root
for the empty path, otherwise a database fetch by `ordinals`. -/
def common_parent_loc (f : List CTree) (cp : List Nat) : Option Loc :=
  if cp.isEmpty then some (.root f)
  else (findByOrd cp f).map .node

/-- The Python subscript `children[o - 1]` of `content_tree__get_descendant`
as a 0-based index: ordinal `o ≥ 1` addresses index `o - 1`; ordinal `0`
yields Python index `-1`, the last element. -/
def pyChildIndex (cs : List CTree) (o : Nat) : Nat :=
  if o == 0 then cs.length - 1 else o - 1

/-- The child-list walk of `content_tree__get_descendant` (relative
ordinal components), additionally recording the 0-based positional path
taken; `none` models the `IndexError` of an out-of-range subscript. -/
def locWalkPos : Loc → List Nat → Option (Loc × List Nat)
  | l, [] => some (l, [])
  | l, o :: rest =>
    match l.kids.get? (pyChildIndex l.kids o) with
    | none => none
    | some c =>
      (locWalkPos (.node c) rest).map fun p => (p.1, pyChildIndex l.kids o :: p.2)

/-- Python `list.insert(i, x)` for a non-negative index: past-the-end
indices append. -/
def listInsertAt : List CTree → Nat → CTree → List CTree
  | l, 0, x => x :: l
  | [], _ + 1, x => [x]
  | h :: t, n + 1, x => h :: listInsertAt t n x

/-- `new_parent.content_tree__children.insert(new_ordinals[-1] - 1, moved_node)`:
ordinal `0` gives Python index `-1` (insert before the last element);
otherwise the 1-based ordinal, clamped at the end as Python does. -/
def pyInsertChild (cs : List CTree) (lastOrd : Nat) (x : CTree) : List CTree :=
  if lastOrd == 0 then listInsertAt cs (cs.length - 1) x
  else listInsertAt cs (lastOrd - 1) x

/-- `moved_node.content_tree__parent.content_tree__children.remove(moved_node)`
on the loaded subtree, by the moved node's 0-based positional path. -/
def removeAtPos : List CTree → List Nat → List CTree
  | cs, [] => cs
  | cs, [k] => cs.eraseIdx k
  | cs, k :: rest =>
    match cs.get? k with
    | none => cs
    | some (CTree.node d ccs) => cs.set k (CTree.node d (removeAtPos ccs rest))

/-- Insertion into the children of the node at the given 0-based
positional path. -/
def insertAtPos : List CTree → List Nat → Nat → CTree → List CTree
  | cs, [], lastOrd, x => pyInsertChild cs lastOrd x
  | cs, k :: rest, lastOrd, x =>
    match cs.get? k with
    | none => cs
    | some (CTree.node d ccs) => cs.set k (CTree.node d (insertAtPos ccs rest lastOrd x))

/-- Python resolves `new_parent` to an object *before* detaching the moved
node, so its identity survives the removal; functionally, the new
parent's positional path loses one step at the level where the removal
happened if it passes that level to the right of the removed child.
(When the resolved parent lies inside the moved subtree the Python object
graph becomes cyclic and `store` would not terminate; that pathological
aliasing is outside this model and the claims.) -/
def adjustAfterRemove (posMoved posParent : List Nat) : List Nat :=
  if posMoved.dropLast == posParent.take (posMoved.length - 1) &&
      decide (posMoved.length - 1 < posParent.length) &&
      decide (posMoved.getLastD 0 < posParent.getD (posMoved.length - 1) 0) then
    posParent.set (posMoved.length - 1) (posParent.getD (posMoved.length - 1) 0 - 1)
  else posParent

/-- Write the rewritten common-parent subtree back over the row fetched by
`ordinals` (unique under the path invariant, like the Django `get`). -/
def replaceByOrd (ords : List Nat) (nw : CTree) : List CTree → List CTree
  | [] => []
  | CTree.node d cs :: rest =>
    if d.ordinals == ords then nw :: replaceByOrd ords nw rest
    else CTree.node d (replaceByOrd ords nw cs) :: replaceByOrd ords nw rest
  termination_by ts => sizeOf ts

/-- The `ValueError`s (and uncaught lookup failures) of
`content_tree__move_to`, by message. -/
inductive MoveErr where
  | cannotMoveToRoot
  | cannotMoveLegacyNode
  | cannotMoveInsideItself
  | invalidParentDoesNotExist
  | cannotAddDescendantOfResource
  | notADescendant
  | relatedRowMissing
  | unexpectedNodeAtOrdinal
  deriving Repr, DecidableEq

/-- Outcome of `content_tree__move_to`: the stored forest, the rows
written by the closing `content_tree__store`, and the raised error, if
any.  An exception leaves the stored forest untouched and writes
nothing. -/
structure MoveResult where
  forest : List CTree
  writes : List NodeData
  err : Option MoveErr
  deriving Repr

/-- `ContentNode.content_tree__move_to`.  In source order: the no-op
early return when the target equals the current ordinals; the
`Cannot move node to root` check (`len(new_ordinals) < 1`); the
`Cannot move legacy casebook node` check (`is_legacy_casebook_node`,
i.e. empty `ordinals`); the `Cannot move a node inside itself` prefix
check; the fetch and load of the common grandparent; the resolution of
the new parent via `content_tree__get_descendant` (its own prefix guard,
then the child walk whose `IndexError` becomes
`Invalid new ordinals; parent does not exist`); the
`Cannot add descendant of Resource` check; the lookup of the moved node
(an unexpected row raises); then only mutation — detach, insert at the
target index, and `content_tree__store` on the common grandparent
(`Casebook` store when the common prefix is empty, `ContentNode` store
otherwise, spliced back over the fetched row). -/
def content_tree__move_to (f : List CTree) (selfId : Nat)
    (selfOrds newOrds : List Nat) : MoveResult :=
  if newOrds == selfOrds then ⟨f, [], none⟩
  else if newOrds.length < 1 then ⟨f, [], some .cannotMoveToRoot⟩
  else if selfOrds.isEmpty then ⟨f, [], some .cannotMoveLegacyNode⟩
  else if newOrds.take selfOrds.length == selfOrds then
    ⟨f, [], some .cannotMoveInsideItself⟩
  else
    let cp := commonPref selfOrds newOrds.dropLast
    match common_parent_loc f cp with
    | none => ⟨f, [], some .relatedRowMissing⟩
    | some cpl =>
      if newOrds.dropLast.take cp.length != cp then ⟨f, [], some .notADescendant⟩
      else
        match locWalkPos cpl (newOrds.dropLast.drop cp.length) with
        | none => ⟨f, [], some .invalidParentDoesNotExist⟩
        | some (npl, posNew) =>
          if npl.isRes then ⟨f, [], some .cannotAddDescendantOfResource⟩
          else if selfOrds.take cp.length != cp then ⟨f, [], some .notADescendant⟩
          else
            match locWalkPos cpl (selfOrds.drop cp.length) with
            | none => ⟨f, [], some .relatedRowMissing⟩
            | some (.root _, _) => ⟨f, [], some .relatedRowMissing⟩
            | some (.node mt, posOld) =>
              if mt.data.id != selfId then ⟨f, [], some .unexpectedNodeAtOrdinal⟩
              else
                let cs2 := insertAtPos (removeAtPos cpl.kids posOld)
                  (adjustAfterRemove posOld posNew) (newOrds.getLastD 0) mt
                match cpl with
                | .root _ =>
                  ⟨casebook_update_ordinals_tree 0 0 cs2,
                   casebook_update_ordinals_yield 0 0 cs2, none⟩
                | .node (CTree.node d _) =>
                  ⟨replaceByOrd d.ordinals
                      (CTree.node d (content_tree__update_ordinals_tree d.ordinals
                        d.display_ordinals 0 0 cs2)) f,
                   d :: content_tree__update_ordinals_yield d.ordinals
                     d.display_ordinals 0 0 cs2, none⟩

lemma commonPref_take_right : ∀ a b : List Nat,
    b.take (commonPref a b).length = commonPref a b := by
  intro a
  induction a with
  | nil => intro b; cases b <;> rfl
  | cons x xs ih =>
    intro b
    cases b with
    | nil => rfl
    | cons y ys =>
      rw [commonPref]
      by_cases h : x = y
      · rw [if_pos h, List.length_cons, List.take_cons_succ, ih ys, h]
      · rw [if_neg h]
        rfl

lemma commonPref_take_left : ∀ a b : List Nat,
    a.take (commonPref a b).length = commonPref a b := by
  intro a
  induction a with
  | nil => intro b; rfl
  | cons x xs ih =>
    intro b
    cases b with
    | nil => rfl
    | cons y ys =>
      rw [commonPref]
      by_cases h : x = y
      · rw [if_pos h, List.length_cons, List.take_cons_succ, ih ys]
      · rw [if_neg h]
        rfl

end H2O

namespace H2O

/-- C3 counterexample.  An empty target path does not always raise: when
the node's own `ordinals` are also empty (a legacy casebook node), the
`new_ordinals == self.ordinals` early return fires first and
`content_tree__move_to` returns silently, with no error and no write. -/
theorem claim_C3_counterexample :
    content_tree__move_to
      [CTree.node ⟨1, [1], [1], true, false⟩
        [CTree.node ⟨2, [1, 1], [1, 1], true, true⟩ []],
       CTree.node ⟨3, [2], [2], true, false⟩ []] 99 [] [] =
    ⟨[CTree.node ⟨1, [1], [1], true, false⟩
        [CTree.node ⟨2, [1, 1], [1, 1], true, true⟩ []],
      CTree.node ⟨3, [2], [2], true, false⟩ []], [], none⟩ := by
  rfl

/-- C3 (amended).  Unless the target path equals the node's current
`ordinals` (in which case `content_tree__move_to` returns at once with no
error and no write — in particular for an empty target on a node with
empty ordinals), each invalid move raises its typed `ValueError` before
any write, with the stored forest untouched and an empty write list, and
the validations run in source order: an empty target raises
`Cannot move node to root`; a target strictly inside the node's own
subtree raises `Cannot move a node inside itself` (for a non-legacy node;
the fixed-node check precedes it); a target whose parent does not resolve
raises `Invalid new ordinals; parent does not exist`; and a target parent
that is a resource raises `Cannot add descendant of Resource`. -/
theorem claim_C3_move_to_validation :
    (∀ (f : List CTree) (selfId : Nat) (selfOrds : List Nat),
      selfOrds ≠ [] →
      content_tree__move_to f selfId selfOrds [] =
        ⟨f, [], some .cannotMoveToRoot⟩) ∧
    (∀ (f : List CTree) (selfId : Nat) (selfOrds newOrds : List Nat),
      selfOrds ≠ [] → newOrds ≠ selfOrds →
      newOrds.take selfOrds.length = selfOrds →
      content_tree__move_to f selfId selfOrds newOrds =
        ⟨f, [], some .cannotMoveInsideItself⟩) ∧
    (∀ (f : List CTree) (selfId : Nat) (selfOrds newOrds : List Nat) (cpl : Loc),
      selfOrds ≠ [] → newOrds ≠ [] → newOrds ≠ selfOrds →
      newOrds.take selfOrds.length ≠ selfOrds →
      common_parent_loc f (commonPref selfOrds newOrds.dropLast) = some cpl →
      locWalkPos cpl
        (newOrds.dropLast.drop (commonPref selfOrds newOrds.dropLast).length) = none →
      content_tree__move_to f selfId selfOrds newOrds =
        ⟨f, [], some .invalidParentDoesNotExist⟩) ∧
    (∀ (f : List CTree) (selfId : Nat) (selfOrds newOrds : List Nat) (cpl npl : Loc)
      (posNew : List Nat),
      selfOrds ≠ [] → newOrds ≠ [] → newOrds ≠ selfOrds →
      newOrds.take selfOrds.length ≠ selfOrds →
      common_parent_loc f (commonPref selfOrds newOrds.dropLast) = some cpl →
      locWalkPos cpl
        (newOrds.dropLast.drop (commonPref selfOrds newOrds.dropLast).length) =
        some (npl, posNew) →
      npl.isRes = true →
      content_tree__move_to f selfId selfOrds newOrds =
        ⟨f, [], some .cannotAddDescendantOfResource⟩) := by
  refine ⟨?_, ?_, ?_, ?_⟩
  · intro f selfId selfOrds hs
    have h1 : (([] : List Nat) == selfOrds) = false :=
      beq_eq_false_iff_ne.mpr fun hh => hs hh.symm
    simp [content_tree__move_to, h1]
  · intro f selfId selfOrds newOrds hs hne htake
    have h1 : (newOrds == selfOrds) = false := beq_eq_false_iff_ne.mpr hne
    have hnn : newOrds ≠ [] := by
      intro h
      subst h
      simp at htake
      exact hs htake
    have h2 : ¬ newOrds.length < 1 := by
      have := List.length_pos.mpr hnn
      omega
    have h3 : selfOrds.isEmpty = false := by
      simpa [List.isEmpty_iff] using hs
    have h4 : (newOrds.take selfOrds.length == selfOrds) = true := beq_iff_eq.mpr htake
    simp [content_tree__move_to, h1, h2, h3, h4]
  · intro f selfId selfOrds newOrds cpl hs hnn hne htake hcp hwalk
    have h1 : (newOrds == selfOrds) = false := beq_eq_false_iff_ne.mpr hne
    have h2 : ¬ newOrds.length < 1 := by
      have := List.length_pos.mpr hnn
      omega
    have h3 : selfOrds.isEmpty = false := by
      simpa [List.isEmpty_iff] using hs
    have h4 : (newOrds.take selfOrds.length == selfOrds) = false :=
      beq_eq_false_iff_ne.mpr htake
    have h5 : (newOrds.dropLast.take (commonPref selfOrds newOrds.dropLast).length !=
        commonPref selfOrds newOrds.dropLast) = false := by
      rw [commonPref_take_right]
      simp
    simp [content_tree__move_to, h1, h2, h3, h4, hcp, h5, hwalk]
  · intro f selfId selfOrds newOrds cpl npl posNew hs hnn hne htake hcp hwalk hres
    have h1 : (newOrds == selfOrds) = false := beq_eq_false_iff_ne.mpr hne
    have h2 : ¬ newOrds.length < 1 := by
      have := List.length_pos.mpr hnn
      omega
    have h3 : selfOrds.isEmpty = false := by
      simpa [List.isEmpty_iff] using hs
    have h4 : (newOrds.take selfOrds.length == selfOrds) = false :=
      beq_eq_false_iff_ne.mpr htake
    have h5 : (newOrds.dropLast.take (commonPref selfOrds newOrds.dropLast).length !=
        commonPref selfOrds newOrds.dropLast) = false := by
      rw [commonPref_take_right]
      simp
    simp [content_tree__move_to, h1, h2, h3, h4, hcp, h5, hwalk, hres]

/-- C3 witness: on a concrete casebook (section `[1]` with a resource at
`[1, 1]`, section `[2]`), each of the four invalid moves yields its typed
error and leaves the tree untouched. -/
theorem claim_C3_witness :
    (content_tree__move_to
      [CTree.node ⟨1, [1], [1], true, false⟩
        [CTree.node ⟨2, [1, 1], [1, 1], true, true⟩ []],
       CTree.node ⟨3, [2], [2], true, false⟩ []] 3 [2] [] =
      ⟨[CTree.node ⟨1, [1], [1], true, false⟩
          [CTree.node ⟨2, [1, 1], [1, 1], true, true⟩ []],
        CTree.node ⟨3, [2], [2], true, false⟩ []], [], some .cannotMoveToRoot⟩) ∧
    (content_tree__move_to
      [CTree.node ⟨1, [1], [1], true, false⟩
        [CTree.node ⟨2, [1, 1], [1, 1], true, true⟩ []],
       CTree.node ⟨3, [2], [2], true, false⟩ []] 1 [1] [1, 1] =
      ⟨[CTree.node ⟨1, [1], [1], true, false⟩
          [CTree.node ⟨2, [1, 1], [1, 1], true, true⟩ []],
        CTree.node ⟨3, [2], [2], true, false⟩ []], [], some .cannotMoveInsideItself⟩) ∧
    (content_tree__move_to
      [CTree.node ⟨1, [1], [1], true, false⟩
        [CTree.node ⟨2, [1, 1], [1, 1], true, true⟩ []],
       CTree.node ⟨3, [2], [2], true, false⟩ []] 3 [2] [1, 5, 1] =
      ⟨[CTree.node ⟨1, [1], [1], true, false⟩
          [CTree.node ⟨2, [1, 1], [1, 1], true, true⟩ []],
        CTree.node ⟨3, [2], [2], true, false⟩ []], [],
        some .invalidParentDoesNotExist⟩) ∧
    (content_tree__move_to
      [CTree.node ⟨1, [1], [1], true, false⟩
        [CTree.node ⟨2, [1, 1], [1, 1], true, true⟩ []],
       CTree.node ⟨3, [2], [2], true, false⟩ []] 3 [2] [1, 1, 1] =
      ⟨[CTree.node ⟨1, [1], [1], true, false⟩
          [CTree.node ⟨2, [1, 1], [1, 1], true, true⟩ []],
        CTree.node ⟨3, [2], [2], true, false⟩ []], [],
        some .cannotAddDescendantOfResource⟩) := by
  refine ⟨?_, ?_, ?_, ?_⟩
  · exact claim_C3_move_to_validation.1 _ 3 [2] (by decide)
  · exact claim_C3_move_to_validation.2.1 _ 1 [1] [1, 1] (by decide) (by decide) rfl
  · exact claim_C3_move_to_validation.2.2.1 _ 3 [2] [1, 5, 1]
      (.root [CTree.node ⟨1, [1], [1], true, false⟩
        [CTree.node ⟨2, [1, 1], [1, 1], true, true⟩ []],
       CTree.node ⟨3, [2], [2], true, false⟩ []])
      (by decide) (by decide) (by decide) (by decide) rfl rfl
  · exact claim_C3_move_to_validation.2.2.2 _ 3 [2] [1, 1, 1]
      (.root [CTree.node ⟨1, [1], [1], true, false⟩
        [CTree.node ⟨2, [1, 1], [1, 1], true, true⟩ []],
       CTree.node ⟨3, [2], [2], true, false⟩ []])
      (.node (CTree.node ⟨2, [1, 1], [1, 1], true, true⟩ [])) [0, 0]
      (by decide) (by decide) (by decide) (by decide) rfl rfl rfl

end H2O
